import Mathlib

/-!
Shallow embedding of `src/src/rommanager.cpp` (CROMManager of the
mt32-pi project): a store of five optional ROM-image slots, the
classification performed by `StoreROM`, the queries `HaveROMSet` and
`GetROMSet`, the scan loop `ScanROMs` with its legacy fallback, and the
destructor's release loop.

Images are modelled as values carrying an allocation identifier (the
C++ pointer) and the validator's `ROMInfo` (possibly null).  Pointer
comparison in the C++ becomes value equality; distinct allocations have
distinct identifiers, captured by the `DistinctSlots` predicate where a
theorem needs it.
-/

namespace ROMManager

/-- `MT32Emu::ROMInfo::Type`: the source tests `Control` and `PCM`;
any other enumerator falls through both branches. -/
inductive ROMInfoType
  | Control
  | PCM
  | Other
deriving DecidableEq, Repr

/-- `MT32Emu::ROMInfo` as used by `StoreROM`: the discriminated kind and
the fixed-format `shortName` character array. -/
structure ROMInfo where
  type : ROMInfoType
  shortName : List Char
deriving DecidableEq, Repr

/-- `romInfo->shortName[i]`: indexing into the name token. -/
def shortNameChar (ri : ROMInfo) (i : Nat) : Char :=
  ri.shortName.getD i (Char.ofNat 0)

/-- `MT32Emu::ROMImage`: an allocation identifier (the pointer) together
with what `getROMInfo()` returns (null modelled as `none`). -/
structure ROMImage where
  id : Nat
  info : Option ROMInfo
deriving DecidableEq, Repr

/-- `TROMSet` from rommanager.h, as consumed by the switch statements. -/
inductive TROMSet
  | Any
  | MT32Old
  | MT32New
  | CM32L
deriving DecidableEq, Repr

/-- The five member pointers of `CROMManager`; `none` is a null pointer. -/
structure CROMManager where
  mMT32OldControl : Option ROMImage
  mMT32NewControl : Option ROMImage
  mCM32LControl : Option ROMImage
  mMT32PCM : Option ROMImage
  mCM32LPCM : Option ROMImage
deriving DecidableEq, Repr

/-- The constructor `CROMManager::CROMManager`: every slot starts null. -/
def initManager : CROMManager :=
  { mMT32OldControl := none
    mMT32NewControl := none
    mCM32LControl := none
    mMT32PCM := none
    mCM32LPCM := none }

/-- The five slot identities, in the order of the destructor's `roms` array. -/
inductive Slot
  | MT32OldControl
  | MT32NewControl
  | CM32LControl
  | MT32PCM
  | CM32LPCM
deriving DecidableEq, Repr, Fintype

/-- Read one member pointer. -/
def getSlot (s : CROMManager) : Slot → Option ROMImage
  | Slot.MT32OldControl => s.mMT32OldControl
  | Slot.MT32NewControl => s.mMT32NewControl
  | Slot.CM32LControl => s.mCM32LControl
  | Slot.MT32PCM => s.mMT32PCM
  | Slot.CM32LPCM => s.mCM32LPCM

/-- Write one member pointer (`*romPtr = &ROMImage`). -/
def setSlot (s : CROMManager) : Slot → ROMImage → CROMManager
  | Slot.MT32OldControl, img => { s with mMT32OldControl := some img }
  | Slot.MT32NewControl, img => { s with mMT32NewControl := some img }
  | Slot.CM32LControl, img => { s with mCM32LControl := some img }
  | Slot.MT32PCM, img => { s with mMT32PCM := some img }
  | Slot.CM32LPCM, img => { s with mCM32LPCM := some img }

/-- The `romPtr` selection inside `CROMManager::StoreROM` (lines 176-199):
Control kind dispatches on `shortName[10]` (`'1'` or `'b'` is an old MT-32
control ROM, `'2'` a new one, anything else is taken as CM-32L); PCM kind
dispatches on `shortName[4]` (`'m'` is MT-32, anything else CM-32L); any
other kind leaves `romPtr` null. -/
def classify (ri : ROMInfo) : Option Slot :=
  match ri.type with
  | ROMInfoType.Control =>
    if shortNameChar ri 10 = '1' ∨ shortNameChar ri 10 = 'b' then
      some Slot.MT32OldControl
    else if shortNameChar ri 10 = '2' then
      some Slot.MT32NewControl
    else
      some Slot.CM32LControl
  | ROMInfoType.PCM =>
    if shortNameChar ri 4 = 'm' then
      some Slot.MT32PCM
    else
      some Slot.CM32LPCM
  | ROMInfoType.Other => none

/-- `CROMManager::StoreROM` (lines 167-207): reject a null `romInfo`,
classify, reject when no slot was selected or the slot is already taken,
otherwise store.  The returned state is unchanged on failure. -/
def StoreROM (s : CROMManager) (img : ROMImage) : Bool × CROMManager :=
  match img.info with
  | none => (false, s)
  | some romInfo =>
    match classify romInfo with
    | none => (false, s)
    | some slot =>
      if (getSlot s slot).isSome then (false, s)
      else (true, setSlot s slot img)

/-- `CROMManager::HaveROMSet` (lines 84-102). -/
def HaveROMSet (s : CROMManager) (ROMSet : TROMSet) : Bool :=
  match ROMSet with
  | TROMSet.Any =>
    (s.mMT32OldControl.isSome || s.mMT32NewControl.isSome || s.mCM32LControl.isSome)
      && (s.mMT32PCM.isSome || s.mCM32LPCM.isSome)
  | TROMSet.MT32Old => s.mMT32OldControl.isSome && s.mMT32PCM.isSome
  | TROMSet.MT32New => s.mMT32NewControl.isSome && s.mMT32PCM.isSome
  | TROMSet.CM32L => s.mCM32LControl.isSome && s.mCM32LPCM.isSome

/-- The `pOutControl` assignment of the `Any` branch of `GetROMSet`
(lines 111-117): old MT-32 control first, else new MT-32 control, else
the CM-32L control pointer. -/
def anyControl (s : CROMManager) : Option ROMImage :=
  if s.mMT32OldControl.isSome then s.mMT32OldControl
  else if s.mMT32NewControl.isSome then s.mMT32NewControl
  else s.mCM32LControl

/-- The `pOutPCM` assignment of the `Any` branch of `GetROMSet`
(lines 119-122): `if (pOutControl == mCM32LControl && mCM32LPCM)
pOutPCM = mCM32LPCM; else pOutPCM = mMT32PCM;`. -/
def anyPCM (s : CROMManager) : Option ROMImage :=
  if anyControl s = s.mCM32LControl ∧ s.mCM32LPCM.isSome then s.mCM32LPCM
  else s.mMT32PCM

/-- `CROMManager::GetROMSet` (lines 104-143): `none` models returning
`false` with the out-parameters untouched; `some (control, pcm)` models
returning `true` after the two assignments.  The `Any` branch picks the
control by the if/else-if chain (`anyControl`) and then compares the
picked pointer with `mCM32LControl` (`anyPCM`). -/
def GetROMSet (s : CROMManager) (ROMSet : TROMSet) :
    Option (Option ROMImage × Option ROMImage) :=
  if !(HaveROMSet s ROMSet) then none
  else
    match ROMSet with
    | TROMSet.Any => some (anyControl s, anyPCM s)
    | TROMSet.MT32Old => some (s.mMT32OldControl, s.mMT32PCM)
    | TROMSet.MT32New => some (s.mMT32NewControl, s.mMT32PCM)
    | TROMSet.CM32L => some (s.mCM32LControl, s.mCM32LPCM)

/-- A directory entry as `ScanROMs` sees it: the long file name and the
three attribute bits the loop tests (`AM_DIR`, `AM_HID`, `AM_SYS`). -/
structure FILINFO where
  fname : String
  amDir : Bool
  amHid : Bool
  amSys : Bool
deriving DecidableEq, Repr

/-- The external collaborators `ScanROMs`/`CheckROM` consult:
the entries the directory iteration yields (empty when `f_findfirst`
fails), whether `FileStream::open` succeeds on a path, and the image
`ROMImage::makeROMImage` builds from the opened file. -/
structure Env where
  entries : List FILINFO
  openOk : String → Bool
  romAt : String → ROMImage

/-- `MT32ControlROMName` (line 29). -/
def MT32ControlROMName : String := "MT32_CONTROL.ROM"

/-- `MT32PCMROMName` (line 30). -/
def MT32PCMROMName : String := "MT32_PCM.ROM"

/-- `ROMPath` (line 26). -/
def ROMPath : String := "roms"

/-- `CROMManager::CheckROM` (lines 145-165): failure to open keeps the
store unchanged; otherwise the made image is handed to `StoreROM`, whose
success is the result (on rejection the image is freed by the caller and
the store is unchanged). -/
def CheckROM (env : Env) (s : CROMManager) (pPath : String) : Bool × CROMManager :=
  if env.openOk pPath then StoreROM s (env.romAt pPath)
  else (false, s)

/-- One iteration of the `ScanROMs` while loop (lines 61-75): entries
whose attributes mark directory, hidden or system are skipped, the rest
are passed to `CheckROM` under the assembled `roms/` path; the loop
ignores the result. -/
def scanStep (env : Env) (s : CROMManager) (fileInfo : FILINFO) : CROMManager :=
  if !(fileInfo.amDir || fileInfo.amHid || fileInfo.amSys) then
    (CheckROM env s (ROMPath ++ "/" ++ fileInfo.fname)).2
  else s

/-- The whole directory walk of `ScanROMs`. -/
def scanWalk (env : Env) (s : CROMManager) (es : List FILINFO) : CROMManager :=
  es.foldl (scanStep env) s

/-- `CROMManager::ScanROMs` (lines 51-82): walk the directory, then, when
no `Any` set resulted, `return CheckROM(MT32ControlROMName) &&
CheckROM(MT32PCMROMName)` — the `&&` short-circuits, so the second
`CheckROM` only runs when the first succeeded. -/
def ScanROMs (env : Env) (s : CROMManager) : Bool × CROMManager :=
  let s1 := scanWalk env s env.entries
  if !(HaveROMSet s1 TROMSet.Any) then
    let r1 := CheckROM env s1 MT32ControlROMName
    if r1.1 then CheckROM env r1.2 MT32PCMROMName
    else (false, r1.2)
  else (true, s1)

/-- The paths the fallback branch of `ScanROMs` passes to `CheckROM`, in
order, read off the same control flow as `ScanROMs`: nothing when the
walk produced an `Any` set; both legacy names when the first fallback
call succeeds; only the first name when it fails (short-circuit `&&`). -/
def fallbackAttempts (env : Env) (s : CROMManager) : List String :=
  let s1 := scanWalk env s env.entries
  if !(HaveROMSet s1 TROMSet.Any) then
    let r1 := CheckROM env s1 MT32ControlROMName
    if r1.1 then [MT32ControlROMName, MT32PCMROMName]
    else [MT32ControlROMName]
  else []

/-- The destructor's `roms` array order (line 45). -/
def slotList : List Slot :=
  [Slot.MT32OldControl, Slot.MT32NewControl, Slot.CM32LControl,
   Slot.MT32PCM, Slot.CM32LPCM]

/-- `CROMManager::~CROMManager` (lines 43-49): the images passed to
`MT32Emu::ROMImage::freeROMImage`, one per non-null slot, in array
order. -/
def destructorFrees (s : CROMManager) : List ROMImage :=
  (slotList.map (getSlot s)).filterMap id

/-- Pointer semantics of the C++ store: two different slots never hold
the same image, because every stored image is a separate
`makeROMImage` allocation. -/
def DistinctSlots (s : CROMManager) : Prop :=
  ∀ a b : Slot, a ≠ b → (getSlot s a).isSome → getSlot s a ≠ getSlot s b

instance (s : CROMManager) : Decidable (DistinctSlots s) := by
  unfold DistinctSlots; infer_instance

/-! Helper lemmas shared by the claim theorems. -/

lemma getSlot_setSlot_same (s : CROMManager) (slot : Slot) (img : ROMImage) :
    getSlot (setSlot s slot img) slot = some img := by
  cases slot <;> rfl

lemma getSlot_setSlot_other (s : CROMManager) (slot t : Slot) (img : ROMImage)
    (h : t ≠ slot) : getSlot (setSlot s slot img) t = getSlot s t := by
  cases slot <;> cases t <;> first | rfl | exact absurd rfl h

lemma storeROM_fail_frame (s : CROMManager) (img : ROMImage)
    (h : (StoreROM s img).1 = false) : (StoreROM s img).2 = s := by
  unfold StoreROM at h ⊢
  cases hinfo : img.info with
  | none => simp
  | some ri =>
    cases hcl : classify ri with
    | none => simp [hcl]
    | some slot =>
      simp only [hinfo, hcl] at h
      by_cases hfull : (getSlot s slot).isSome
      · simp [hcl, hfull]
      · simp [hfull] at h

lemma storeROM_mono (s : CROMManager) (img : ROMImage) (slot : Slot)
    (i : ROMImage) (h : getSlot s slot = some i) :
    getSlot (StoreROM s img).2 slot = some i := by
  unfold StoreROM
  cases hinfo : img.info with
  | none => simpa using h
  | some ri =>
    cases hcl : classify ri with
    | none => simpa [hcl] using h
    | some sl =>
      by_cases hfull : (getSlot s sl).isSome
      · simpa [hcl, hfull] using h
      · have hne : slot ≠ sl := by
          intro e; subst e; rw [h] at hfull; simp at hfull
        simpa [hcl, hfull, getSlot_setSlot_other s sl slot img hne] using h

lemma checkROM_mono (env : Env) (s : CROMManager) (p : String) (slot : Slot)
    (i : ROMImage) (h : getSlot s slot = some i) :
    getSlot (CheckROM env s p).2 slot = some i := by
  unfold CheckROM
  by_cases ho : env.openOk p
  · simp only [ho, if_pos]; exact storeROM_mono _ _ _ _ h
  · simp only [ho]; simpa using h

lemma scanStep_mono (env : Env) (s : CROMManager) (f : FILINFO) (slot : Slot)
    (i : ROMImage) (h : getSlot s slot = some i) :
    getSlot (scanStep env s f) slot = some i := by
  unfold scanStep
  by_cases hskip : !(f.amDir || f.amHid || f.amSys)
  · simp only [hskip, if_pos]; exact checkROM_mono _ _ _ _ _ h
  · simp only [hskip]; simpa using h

lemma scanWalk_mono (env : Env) (es : List FILINFO) :
    ∀ (s : CROMManager) (slot : Slot) (i : ROMImage),
      getSlot s slot = some i → getSlot (scanWalk env s es) slot = some i := by
  induction es with
  | nil => intro s slot i h; exact h
  | cons f rest ih =>
    intro s slot i h
    exact ih (scanStep env s f) slot i (scanStep_mono env s f slot i h)

lemma haveAny_iff_aux (s : CROMManager) :
    HaveROMSet s TROMSet.Any = true ↔
      ((s.mMT32OldControl ≠ none ∨ s.mMT32NewControl ≠ none ∨ s.mCM32LControl ≠ none) ∧
        (s.mMT32PCM ≠ none ∨ s.mCM32LPCM ≠ none)) := by
  simp [HaveROMSet, Option.isSome_iff_ne_none, or_assoc]

lemma getROMSet_any_eq (s : CROMManager) (h : HaveROMSet s TROMSet.Any = true) :
    GetROMSet s TROMSet.Any = some (anyControl s, anyPCM s) := by
  simp [GetROMSet, h]

lemma anyControl_of_old (s : CROMManager) (i : ROMImage)
    (h : s.mMT32OldControl = some i) : anyControl s = some i := by
  simp [anyControl, h]

lemma anyControl_of_new (s : CROMManager) (i : ROMImage)
    (ho : s.mMT32OldControl = none) (h : s.mMT32NewControl = some i) :
    anyControl s = some i := by
  simp [anyControl, ho, h]

lemma anyControl_of_cm32l (s : CROMManager)
    (ho : s.mMT32OldControl = none) (hn : s.mMT32NewControl = none) :
    anyControl s = s.mCM32LControl := by
  simp [anyControl, ho, hn]

/-- When an MT-32 control slot is filled, the picked control pointer is
not the `mCM32LControl` pointer (they are distinct allocations). -/
lemma anyControl_ne_cm32l (s : CROMManager) (hD : DistinctSlots s)
    (hc : s.mMT32OldControl ≠ none ∨ s.mMT32NewControl ≠ none) :
    anyControl s ≠ s.mCM32LControl := by
  cases ho : s.mMT32OldControl with
  | some i =>
    rw [anyControl_of_old s i ho]
    have := hD Slot.MT32OldControl Slot.CM32LControl (by decide)
      (by simp [getSlot, ho])
    simpa [getSlot, ho] using this
  | none =>
    have hn : s.mMT32NewControl ≠ none := by
      rcases hc with h | h
      · exact absurd ho h
      · exact h
    cases hn2 : s.mMT32NewControl with
    | none => exact absurd hn2 hn
    | some i =>
      rw [anyControl_of_new s i ho hn2]
      have := hD Slot.MT32NewControl Slot.CM32LControl (by decide)
        (by simp [getSlot, hn2])
      simpa [getSlot, hn2] using this

/-- Consequently the PCM picked for `Any` is `mMT32PCM` whenever an MT-32
control slot is filled. -/
lemma anyPCM_of_mt32_control (s : CROMManager) (hD : DistinctSlots s)
    (hc : s.mMT32OldControl ≠ none ∨ s.mMT32NewControl ≠ none) :
    anyPCM s = s.mMT32PCM := by
  unfold anyPCM
  rw [if_neg]
  intro hand
  exact anyControl_ne_cm32l s hD hc hand.1

/-! Concrete fixtures for the witness theorems: validated images whose
name tokens carry the markers the classifier inspects, and small store
states built from them. -/

def riOldControl : ROMInfo := ⟨ROMInfoType.Control, "ctrl_mt32_1".toList⟩

def riNewControl : ROMInfo := ⟨ROMInfoType.Control, "ctrl_mt32_2".toList⟩

def riCM32LControl : ROMInfo := ⟨ROMInfoType.Control, "ctrl_cm32l_".toList⟩

def riMT32PCM : ROMInfo := ⟨ROMInfoType.PCM, "pcm_mt32".toList⟩

def riCM32LPCM : ROMInfo := ⟨ROMInfoType.PCM, "pcm_cm32l".toList⟩

def imgOldControl : ROMImage := ⟨1, some riOldControl⟩

def imgMT32PCM : ROMImage := ⟨2, some riMT32PCM⟩

def imgCM32LControl : ROMImage := ⟨3, some riCM32LControl⟩

def imgCM32LPCM : ROMImage := ⟨4, some riCM32LPCM⟩

/-- A second CM-32L control image, a fresh allocation aimed at an
already-filled slot. -/
def imgDupControl : ROMImage := ⟨5, some riCM32LControl⟩

def stateOldPair : CROMManager :=
  { initManager with
    mMT32OldControl := some imgOldControl
    mMT32PCM := some imgMT32PCM }

def stateCM32LPair : CROMManager :=
  { initManager with
    mCM32LControl := some imgCM32LControl
    mCM32LPCM := some imgCM32LPCM }

def stateOldNoPCM : CROMManager :=
  { initManager with
    mMT32OldControl := some imgOldControl
    mCM32LPCM := some imgCM32LPCM }

def stateCM32LControlOnly : CROMManager :=
  { initManager with mCM32LControl := some imgCM32LControl }

/-- The environment of an empty (or unopenable) ROM directory on a
volume with no legacy files: every open fails. -/
def env0 : Env := ⟨[], fun _ => false, fun _ => ⟨0, none⟩⟩

/-! The claim theorems. -/

/-- C2: `HaveROMSet Any` is true if and only if at least one of the
three control slots is filled and at least one of the two PCM slots is
filled; it is false in every other combination. -/
theorem haveROMSet_any_iff (s : CROMManager) :
    HaveROMSet s TROMSet.Any = true ↔
      ((s.mMT32OldControl ≠ none ∨ s.mMT32NewControl ≠ none ∨ s.mCM32LControl ≠ none) ∧
        (s.mMT32PCM ≠ none ∨ s.mCM32LPCM ≠ none)) :=
  haveAny_iff_aux s

/-- C3: when `HaveROMSet Any` holds, `GetROMSet Any` succeeds and picks
the control output by fixed priority: the MT32-old control image if that
slot is filled, else the MT32-new control image if that slot is filled,
else the CM32L control image. -/
theorem getROMSet_any_control_priority (s : CROMManager)
    (h : HaveROMSet s TROMSet.Any = true) :
    ∃ ctrl pcm, GetROMSet s TROMSet.Any = some (ctrl, pcm) ∧
      (∀ i, s.mMT32OldControl = some i → ctrl = some i) ∧
      (s.mMT32OldControl = none →
        ∀ i, s.mMT32NewControl = some i → ctrl = some i) ∧
      (s.mMT32OldControl = none → s.mMT32NewControl = none →
        ctrl = s.mCM32LControl) := by
  refine ⟨anyControl s, anyPCM s, getROMSet_any_eq s h, ?_, ?_, ?_⟩
  · intro i hi; exact anyControl_of_old s i hi
  · intro ho i hi; exact anyControl_of_new s i ho hi
  · intro ho hn; exact anyControl_of_cm32l s ho hn

/-- C3 witness: a store holding only the MT32-old pair. -/
theorem getROMSet_any_control_priority_witness :
    ∃ ctrl pcm, GetROMSet stateOldPair TROMSet.Any = some (ctrl, pcm) ∧
      (∀ i, stateOldPair.mMT32OldControl = some i → ctrl = some i) ∧
      (stateOldPair.mMT32OldControl = none →
        ∀ i, stateOldPair.mMT32NewControl = some i → ctrl = some i) ∧
      (stateOldPair.mMT32OldControl = none → stateOldPair.mMT32NewControl = none →
        ctrl = stateOldPair.mCM32LControl) :=
  getROMSet_any_control_priority stateOldPair (by decide)

/-- C1: when `HaveROMSet Any` holds, `GetROMSet Any` succeeds with the
asymmetric PCM rule: the CM32L PCM image exactly when the chosen control
is the CM32L slot's image and the CM32L-PCM slot is filled, the MT32-PCM
slot's image in every other case; in particular (for a store whose
filled slots hold pairwise distinct images, as C++ pointers do) a chosen
MT32-old or MT32-new control is always paired with the MT32-PCM slot,
never with the CM32L PCM. -/
theorem getROMSet_any_pcm_rule (s : CROMManager)
    (h : HaveROMSet s TROMSet.Any = true) :
    ∃ ctrl pcm, GetROMSet s TROMSet.Any = some (ctrl, pcm) ∧
      (ctrl = s.mCM32LControl ∧ s.mCM32LPCM ≠ none → pcm = s.mCM32LPCM) ∧
      (¬(ctrl = s.mCM32LControl ∧ s.mCM32LPCM ≠ none) → pcm = s.mMT32PCM) ∧
      (DistinctSlots s →
        (s.mMT32OldControl ≠ none ∨ s.mMT32NewControl ≠ none) →
        pcm = s.mMT32PCM) := by
  refine ⟨anyControl s, anyPCM s, getROMSet_any_eq s h, ?_, ?_, ?_⟩
  · intro hcond
    rw [anyPCM, if_pos]
    exact ⟨hcond.1, Option.isSome_iff_ne_none.mpr hcond.2⟩
  · intro hcond
    rw [anyPCM, if_neg]
    intro hand
    exact hcond ⟨hand.1, Option.isSome_iff_ne_none.mp hand.2⟩
  · intro hD hc; exact anyPCM_of_mt32_control s hD hc

/-- C1 witness: a store holding only the CM32L pair, where the CM32L PCM
is picked. -/
theorem getROMSet_any_pcm_rule_witness :
    ∃ ctrl pcm, GetROMSet stateCM32LPair TROMSet.Any = some (ctrl, pcm) ∧
      (ctrl = stateCM32LPair.mCM32LControl ∧ stateCM32LPair.mCM32LPCM ≠ none →
        pcm = stateCM32LPair.mCM32LPCM) ∧
      (¬(ctrl = stateCM32LPair.mCM32LControl ∧ stateCM32LPair.mCM32LPCM ≠ none) →
        pcm = stateCM32LPair.mMT32PCM) ∧
      (DistinctSlots stateCM32LPair →
        (stateCM32LPair.mMT32OldControl ≠ none ∨ stateCM32LPair.mMT32NewControl ≠ none) →
        pcm = stateCM32LPair.mMT32PCM) :=
  getROMSet_any_pcm_rule stateCM32LPair (by decide)

/-- C9: a store (with pairwise distinct images, as C++ pointers are)
holding an MT32 control and a CM32L PCM but no MT32 PCM satisfies
`HaveROMSet Any`, and `GetROMSet Any` reports success while the PCM
output is the empty MT32-PCM slot's null pointer: the caller receives
`true` together with no PCM image. -/
theorem getROMSet_any_success_without_pcm (s : CROMManager)
    (hD : DistinctSlots s)
    (hc : s.mMT32OldControl ≠ none ∨ s.mMT32NewControl ≠ none)
    (hp : s.mMT32PCM = none) (hq : s.mCM32LPCM ≠ none) :
    HaveROMSet s TROMSet.Any = true ∧
      ∃ ctrl, GetROMSet s TROMSet.Any = some (ctrl, none) := by
  have hAny : HaveROMSet s TROMSet.Any = true := by
    rw [haveAny_iff_aux]
    refine ⟨?_, Or.inr hq⟩
    rcases hc with hh | hh
    · exact Or.inl hh
    · exact Or.inr (Or.inl hh)
  refine ⟨hAny, anyControl s, ?_⟩
  rw [getROMSet_any_eq s hAny, anyPCM_of_mt32_control s hD hc, hp]

/-- C9 witness: only the MT32-old control and the CM32L PCM are
present; `GetROMSet Any` succeeds with a null PCM output. -/
theorem getROMSet_any_success_without_pcm_witness :
    HaveROMSet stateOldNoPCM TROMSet.Any = true ∧
      ∃ ctrl, GetROMSet stateOldNoPCM TROMSet.Any = some (ctrl, none) :=
  getROMSet_any_success_without_pcm stateOldNoPCM (by decide) (by decide)
    (by decide) (by decide)

/-- C5: handing `StoreROM` a valid image whose classification targets an
already-filled slot fails and returns the store exactly as it was:
every slot, in particular the filled target slot, keeps its image, and
the new image is not taken. -/
theorem storeROM_duplicate_rejected (s : CROMManager) (img : ROMImage)
    (ri : ROMInfo) (slot : Slot) (hinfo : img.info = some ri)
    (hcl : classify ri = some slot) (hfull : getSlot s slot ≠ none) :
    StoreROM s img = (false, s) := by
  have hsome : (getSlot s slot).isSome = true :=
    Option.isSome_iff_ne_none.mpr hfull
  unfold StoreROM
  simp [hinfo, hcl, hsome]

/-- C5 witness: a second CM-32L control image aimed at the filled CM32L
control slot is rejected and the store is unchanged. -/
theorem storeROM_duplicate_rejected_witness :
    StoreROM stateCM32LControlOnly imgDupControl = (false, stateCM32LControlOnly) :=
  storeROM_duplicate_rejected stateCM32LControlOnly imgDupControl
    riCM32LControl Slot.CM32LControl (by rfl) (by decide) (by decide)

/-- C6: `StoreROM` rejects an image with no recognizable kind without
touching the store, and classifies the rest into exactly one slot:
a Control image by `shortName[10]` (the old-generation markers give the
MT32-old slot, the new-generation marker the MT32-new slot, and any
other character the CM32L slot as an unconditional catch-all), a PCM
image by `shortName[4]` (the MT-32 marker gives the MT32-PCM slot, any
other character the CM32L-PCM catch-all). -/
theorem storeROM_classification (s : CROMManager) (img : ROMImage) :
    (img.info = none → StoreROM s img = (false, s)) ∧
    (∀ ri, img.info = some ri →
      ((ri.type ≠ ROMInfoType.Control ∧ ri.type ≠ ROMInfoType.PCM) →
        StoreROM s img = (false, s)) ∧
      (ri.type = ROMInfoType.Control →
        ((shortNameChar ri 10 = '1' ∨ shortNameChar ri 10 = 'b') →
          classify ri = some Slot.MT32OldControl) ∧
        (shortNameChar ri 10 ≠ '1' → shortNameChar ri 10 ≠ 'b' →
          shortNameChar ri 10 = '2' → classify ri = some Slot.MT32NewControl) ∧
        (shortNameChar ri 10 ≠ '1' → shortNameChar ri 10 ≠ 'b' →
          shortNameChar ri 10 ≠ '2' → classify ri = some Slot.CM32LControl)) ∧
      (ri.type = ROMInfoType.PCM →
        (shortNameChar ri 4 = 'm' → classify ri = some Slot.MT32PCM) ∧
        (shortNameChar ri 4 ≠ 'm' → classify ri = some Slot.CM32LPCM))) := by
  refine ⟨?_, ?_⟩
  · intro h; simp [StoreROM, h]
  · intro ri hri
    refine ⟨?_, ?_, ?_⟩
    · rintro ⟨h1, h2⟩
      have hother : ri.type = ROMInfoType.Other := by
        cases ht : ri.type
        · exact absurd ht h1
        · exact absurd ht h2
        · rfl
      simp [StoreROM, hri, classify, hother]
    · intro ht
      refine ⟨?_, ?_, ?_⟩
      · intro hch; simp [classify, ht, hch]
      · intro h1 h2 h3; simp [classify, ht, h1, h2, h3]
      · intro h1 h2 h3; simp [classify, ht, h1, h2, h3]
    · intro ht
      refine ⟨?_, ?_⟩
      · intro hch; simp [classify, ht, hch]
      · intro hch; simp [classify, ht, hch]

/-- C7: `GetROMSet` fails exactly when `HaveROMSet` does not hold, and
when it succeeds on a named kind the outputs are the fixed pairing of
that kind's control slot with its PCM slot. -/
theorem getROMSet_named_pairing (s : CROMManager) (k : TROMSet) :
    (GetROMSet s k = none ↔ HaveROMSet s k = false) ∧
    (HaveROMSet s k = true →
      (GetROMSet s k).isSome = true ∧
      (k = TROMSet.MT32Old →
        GetROMSet s k = some (s.mMT32OldControl, s.mMT32PCM)) ∧
      (k = TROMSet.MT32New →
        GetROMSet s k = some (s.mMT32NewControl, s.mMT32PCM)) ∧
      (k = TROMSet.CM32L →
        GetROMSet s k = some (s.mCM32LControl, s.mCM32LPCM))) := by
  cases hh : HaveROMSet s k
  · refine ⟨by simp [GetROMSet, hh], ?_⟩
    intro h; exact absurd h (by simp [hh])
  · refine ⟨?_, ?_⟩
    · cases k <;> simp [GetROMSet, hh]
    · intro _
      refine ⟨by cases k <;> simp [GetROMSet, hh], ?_, ?_, ?_⟩ <;>
        (intro hk; subst hk; simp [GetROMSet, hh])

/-! Lemmas for the destructor and the scan orchestration. -/

lemma destructorFrees_eq_filterMap (s : CROMManager) :
    destructorFrees s = slotList.filterMap (getSlot s) := by
  simp [destructorFrees, List.filterMap_map]

lemma mem_destructorFrees (s : CROMManager) (i : ROMImage) :
    i ∈ destructorFrees s ↔ ∃ slot, getSlot s slot = some i := by
  rw [destructorFrees_eq_filterMap]
  constructor
  · intro h
    rcases List.mem_filterMap.mp h with ⟨a, _, ha⟩
    exact ⟨a, ha⟩
  · rintro ⟨slot, h⟩
    exact List.mem_filterMap.mpr ⟨slot, by cases slot <;> simp [slotList], h⟩

lemma nodup_destructorFrees (s : CROMManager) (hD : DistinctSlots s) :
    (destructorFrees s).Nodup := by
  rw [destructorFrees_eq_filterMap]
  refine List.Nodup.filterMap ?_ (by decide)
  intro a b x hxa hxb
  by_contra hne
  have h1 : getSlot s a = some x := Option.mem_def.mp hxa
  have h2 : getSlot s b = some x := Option.mem_def.mp hxb
  exact hD a b hne (by simp [h1]) (by rw [h1, h2])

lemma storeROM_success (s : CROMManager) (img : ROMImage)
    (h : (StoreROM s img).1 = true) :
    ∃ slot, getSlot s slot = none ∧
      getSlot (StoreROM s img).2 slot = some img ∧
      ∀ t, t ≠ slot → getSlot (StoreROM s img).2 t = getSlot s t := by
  unfold StoreROM at h
  cases hinfo : img.info with
  | none => simp [hinfo] at h
  | some ri =>
    simp only [hinfo] at h
    cases hcl : classify ri with
    | none => simp [hcl] at h
    | some sl =>
      simp only [hcl] at h
      by_cases hfull : (getSlot s sl).isSome
      · simp [hfull] at h
      · refine ⟨sl, Option.not_isSome_iff_eq_none.mp (by simpa using hfull), ?_, ?_⟩
        · unfold StoreROM
          simp only [hinfo, hcl]
          rw [if_neg hfull]
          exact getSlot_setSlot_same s sl img
        · intro t ht
          unfold StoreROM
          simp only [hinfo, hcl]
          rw [if_neg hfull]
          exact getSlot_setSlot_other s sl t img ht

lemma scanROMs_mono (env : Env) (s : CROMManager) (slot : Slot) (i : ROMImage)
    (h : getSlot s slot = some i) : getSlot (ScanROMs env s).2 slot = some i := by
  unfold ScanROMs
  have h1 : getSlot (scanWalk env s env.entries) slot = some i :=
    scanWalk_mono env env.entries s slot i h
  cases hh : HaveROMSet (scanWalk env s env.entries) TROMSet.Any
  · have h2 := checkROM_mono env (scanWalk env s env.entries)
      MT32ControlROMName slot i h1
    cases hr : (CheckROM env (scanWalk env s env.entries) MT32ControlROMName).1
    · simpa [hh, hr] using h2
    · have h3 := checkROM_mono env
        (CheckROM env (scanWalk env s env.entries) MT32ControlROMName).2
        MT32PCMROMName slot i h2
      simpa [hh, hr] using h3
  · simpa [hh] using h1

/-- C8: destroying the store releases, per slot, exactly the filled
slots' images: an image held by a slot is freed exactly once, and an
image held by no slot is never freed (slots hold pairwise distinct
images, as C++ pointers from separate allocations are). -/
theorem destructor_frees_exactly_filled (s : CROMManager)
    (hD : DistinctSlots s) :
    (∀ slot i, getSlot s slot = some i → (destructorFrees s).count i = 1) ∧
    (∀ i, (∀ slot, getSlot s slot ≠ some i) → (destructorFrees s).count i = 0) := by
  refine ⟨?_, ?_⟩
  · intro slot i h
    exact List.count_eq_one_of_mem (nodup_destructorFrees s hD)
      ((mem_destructorFrees s i).mpr ⟨slot, h⟩)
  · intro i hno
    rw [List.count_eq_zero]
    intro hmem
    rcases (mem_destructorFrees s i).mp hmem with ⟨slot, h⟩
    exact hno slot h

/-- C8 witness: a partially populated store (MT32-old control and MT32
PCM filled, the rest empty). -/
theorem destructor_frees_exactly_filled_witness :
    (∀ slot i, getSlot stateOldPair slot = some i →
      (destructorFrees stateOldPair).count i = 1) ∧
    (∀ i, (∀ slot, getSlot stateOldPair slot ≠ some i) →
      (destructorFrees stateOldPair).count i = 0) :=
  destructor_frees_exactly_filled stateOldPair (by decide)

/-- C10: slot contents are monotone: `StoreROM` never clears or replaces
a filled slot; a successful `StoreROM` fills exactly one previously
empty slot with the given image and leaves every other slot unchanged;
and `CheckROM` and `ScanROMs`, which mutate only through `StoreROM`,
preserve every held image as well. -/
theorem slots_monotone :
    (∀ (s : CROMManager) (img : ROMImage) (slot : Slot) (i : ROMImage),
      getSlot s slot = some i → getSlot (StoreROM s img).2 slot = some i) ∧
    (∀ (s : CROMManager) (img : ROMImage), (StoreROM s img).1 = true →
      ∃ slot, getSlot s slot = none ∧
        getSlot (StoreROM s img).2 slot = some img ∧
        ∀ t, t ≠ slot → getSlot (StoreROM s img).2 t = getSlot s t) ∧
    (∀ (env : Env) (s : CROMManager) (p : String) (slot : Slot) (i : ROMImage),
      getSlot s slot = some i → getSlot (CheckROM env s p).2 slot = some i) ∧
    (∀ (env : Env) (s : CROMManager) (slot : Slot) (i : ROMImage),
      getSlot s slot = some i → getSlot (ScanROMs env s).2 slot = some i) :=
  ⟨storeROM_mono, storeROM_success, checkROM_mono, scanROMs_mono⟩

/-- C4 counterexample: with an empty ROM directory and a volume where
every open fails, the walk produces no `Any` set, yet the fallback
attempts only the control legacy filename: the PCM legacy filename is
attempted zero times, not exactly once, because `&&` short-circuits. -/
theorem scanROMs_fallback_counterexample :
    HaveROMSet (scanWalk env0 initManager env0.entries) TROMSet.Any = false ∧
    fallbackAttempts env0 initManager = [MT32ControlROMName] ∧
    (fallbackAttempts env0 initManager).count MT32PCMROMName = 0 ∧
    (ScanROMs env0 initManager).1 = false := by
  refine ⟨rfl, rfl, ?_, rfl⟩
  decide

/-- C4 (amended): when the walk yields no `Any` set, the fallback
attempts the control legacy filename exactly once, and attempts the PCM
legacy filename exactly once if the control attempt succeeded and not at
all otherwise; `ScanROMs` returns true iff the walk produced an `Any`
set or both fallback loads succeeded. -/
theorem scanROMs_fallback_amended (env : Env) (s s1 : CROMManager)
    (h1 : s1 = scanWalk env s env.entries) :
    (HaveROMSet s1 TROMSet.Any = false →
      ((CheckROM env s1 MT32ControlROMName).1 = true →
        fallbackAttempts env s = [MT32ControlROMName, MT32PCMROMName]) ∧
      ((CheckROM env s1 MT32ControlROMName).1 = false →
        fallbackAttempts env s = [MT32ControlROMName])) ∧
    (HaveROMSet s1 TROMSet.Any = true → fallbackAttempts env s = []) ∧
    ((ScanROMs env s).1 = true ↔
      (HaveROMSet s1 TROMSet.Any = true ∨
        ((CheckROM env s1 MT32ControlROMName).1 = true ∧
          (CheckROM env (CheckROM env s1 MT32ControlROMName).2
            MT32PCMROMName).1 = true))) := by
  subst h1
  cases hh : HaveROMSet (scanWalk env s env.entries) TROMSet.Any <;>
    cases hr : (CheckROM env (scanWalk env s env.entries) MT32ControlROMName).1 <;>
      simp [ScanROMs, fallbackAttempts, hh, hr]

/-- C4 witness: the empty environment, where the walk yields nothing and
the first fallback attempt fails. -/
theorem scanROMs_fallback_amended_witness :
    (HaveROMSet initManager TROMSet.Any = false →
      ((CheckROM env0 initManager MT32ControlROMName).1 = true →
        fallbackAttempts env0 initManager = [MT32ControlROMName, MT32PCMROMName]) ∧
      ((CheckROM env0 initManager MT32ControlROMName).1 = false →
        fallbackAttempts env0 initManager = [MT32ControlROMName])) ∧
    (HaveROMSet initManager TROMSet.Any = true →
      fallbackAttempts env0 initManager = []) ∧
    ((ScanROMs env0 initManager).1 = true ↔
      (HaveROMSet initManager TROMSet.Any = true ∨
        ((CheckROM env0 initManager MT32ControlROMName).1 = true ∧
          (CheckROM env0 (CheckROM env0 initManager MT32ControlROMName).2
            MT32PCMROMName).1 = true))) :=
  scanROMs_fallback_amended env0 initManager initManager (by rfl)

end ROMManager
